import Mathlib

/-!
Verification development for the NFC tag-to-key emulator
(`nfc-assigned-key-emulator-win.js`, with the macOS variant embedded in the
README, and `nfc-key-emulator.js`).

The development shallowly embeds the core of the program: the JS string
primitives it uses (`trim`, `toLowerCase` on ASCII data), the two static key
tables (`KEY_MAPPINGS` for Windows SendKeys, `KEY_CODES` for macOS
AppleScript), the mapping store (a JS object persisted as a JSON file,
modelled as an association list plus an optional file content), the
interactive assignment helper `askForKeyAssignment`, the `pressKey` lookup,
and the per-tag-presence-event `card` handler.
-/

namespace NfcEmulator

/-- Model of JS `String.prototype.toLowerCase` on one character, for the
ASCII range the program manipulates: code points 65..90 are shifted up by
32, everything else is unchanged. -/
def lowerChar (c : Char) : Char :=
  if 65 ≤ c.toNat && c.toNat ≤ 90 then Char.ofNat (c.toNat + 32) else c

/-- Model of the whitespace class of JS `String.prototype.trim`, restricted
to the ASCII whitespace characters: space, tab, line feed, carriage
return. -/
def isJsWhitespace (c : Char) : Bool :=
  c == ' ' || c == '\t' || c == '\n' || c == '\r'

/-- Model of JS `s.toLowerCase()` (ASCII): lowercase every character. -/
def jsToLowerCase (s : String) : String :=
  ⟨s.data.map lowerChar⟩

/-- Model of JS `s.trim()`: drop whitespace from the front, then from the
back. -/
def jsTrim (s : String) : String :=
  ⟨(s.data.dropWhile isJsWhitespace).rdropWhile isJsWhitespace⟩

theorem toNat_ofNat_of_lt {n : Nat} (h : n < 55296) : (Char.ofNat n).toNat = n := by
  simp [Char.ofNat, Nat.isValidChar, Char.ofNatAux, Char.toNat, h, UInt32.toNat,
    BitVec.toNat_ofNatLt]

theorem lowerChar_toNat_of_upper {c : Char} (h65 : 65 ≤ c.toNat) (h90 : c.toNat ≤ 90) :
    (lowerChar c).toNat = c.toNat + 32 := by
  unfold lowerChar
  have hcond : (65 ≤ c.toNat && c.toNat ≤ 90) = true := by
    simp [h65, h90]
  rw [if_pos hcond]
  exact toNat_ofNat_of_lt (by omega)

theorem lowerChar_eq_self_of_not_upper {c : Char} (h : ¬(65 ≤ c.toNat ∧ c.toNat ≤ 90)) :
    lowerChar c = c := by
  unfold lowerChar
  have hcond : (65 ≤ c.toNat && c.toNat ≤ 90) = false := by
    rw [Bool.and_eq_false_iff]
    by_cases h65 : 65 ≤ c.toNat
    · right; simp; omega
    · left; simp; omega
  rw [if_neg (by simp [hcond])]

theorem lowerChar_lowerChar (c : Char) : lowerChar (lowerChar c) = lowerChar c := by
  by_cases h : 65 ≤ c.toNat ∧ c.toNat ≤ 90
  · have h1 : (lowerChar c).toNat = c.toNat + 32 := lowerChar_toNat_of_upper h.1 h.2
    exact lowerChar_eq_self_of_not_upper (by omega)
  · rw [lowerChar_eq_self_of_not_upper h]
    exact lowerChar_eq_self_of_not_upper h

theorem char_beq_iff_toNat (c d : Char) : (c == d) = true ↔ c.toNat = d.toNat := by
  rw [beq_iff_eq, Char.ext_iff]
  unfold Char.toNat
  exact ⟨fun h => by rw [h], fun h => UInt32.toNat.inj h⟩

theorem isJsWhitespace_iff (c : Char) :
    isJsWhitespace c = true ↔ c.toNat = 32 ∨ c.toNat = 9 ∨ c.toNat = 10 ∨ c.toNat = 13 := by
  unfold isJsWhitespace
  simp only [Bool.or_eq_true, char_beq_iff_toNat,
    show (' ' : Char).toNat = 32 from rfl, show ('\t' : Char).toNat = 9 from rfl,
    show ('\n' : Char).toNat = 10 from rfl, show ('\r' : Char).toNat = 13 from rfl]
  tauto

theorem isJsWhitespace_lowerChar (c : Char) :
    isJsWhitespace (lowerChar c) = isJsWhitespace c := by
  by_cases h : 65 ≤ c.toNat ∧ c.toNat ≤ 90
  · have h1 : (lowerChar c).toNat = c.toNat + 32 := lowerChar_toNat_of_upper h.1 h.2
    have hl : isJsWhitespace (lowerChar c) = false := by
      rw [← Bool.not_eq_true, isJsWhitespace_iff]
      omega
    have hr : isJsWhitespace c = false := by
      rw [← Bool.not_eq_true, isJsWhitespace_iff]
      omega
    rw [hl, hr]
  · rw [lowerChar_eq_self_of_not_upper h]

theorem jsToLowerCase_jsToLowerCase (s : String) :
    jsToLowerCase (jsToLowerCase s) = jsToLowerCase s := by
  unfold jsToLowerCase
  congr 1
  rw [List.map_map]
  exact List.map_congr_left fun c _ => lowerChar_lowerChar c

theorem dropWhile_map_lowerChar (l : List Char) :
    (l.map lowerChar).dropWhile isJsWhitespace =
      (l.dropWhile isJsWhitespace).map lowerChar := by
  rw [List.dropWhile_map]
  have h : isJsWhitespace ∘ lowerChar = isJsWhitespace := funext isJsWhitespace_lowerChar
  rw [h]

theorem rdropWhile_map_lowerChar (l : List Char) :
    (l.map lowerChar).rdropWhile isJsWhitespace =
      (l.rdropWhile isJsWhitespace).map lowerChar := by
  unfold List.rdropWhile
  rw [← List.map_reverse, dropWhile_map_lowerChar, List.map_reverse]

theorem jsTrim_jsToLowerCase (s : String) :
    jsTrim (jsToLowerCase s) = jsToLowerCase (jsTrim s) := by
  unfold jsTrim jsToLowerCase
  congr 1
  rw [dropWhile_map_lowerChar, rdropWhile_map_lowerChar]

theorem trimList_dropWhile {p : Char → Bool} (l : List Char) :
    ((l.dropWhile p).rdropWhile p).dropWhile p = (l.dropWhile p).rdropWhile p := by
  rcases hBe : (l.dropWhile p).rdropWhile p with _ | ⟨b, bs⟩
  · simp
  · rw [List.dropWhile_eq_self_iff]
    intro hl
    have hpre : b :: bs <+: l.dropWhile p := hBe ▸ List.rdropWhile_prefix p (l.dropWhile p)
    have hlen : 0 < (l.dropWhile p).length :=
      lt_of_lt_of_le (by simp) hpre.length_le
    have hget : (b :: bs).get ⟨0, hl⟩ = (l.dropWhile p).get ⟨0, hlen⟩ := by
      have h0 := hpre.getElem (n := 0) (by simp)
      simpa [List.get_eq_getElem] using h0
    rw [hget]
    exact List.dropWhile_get_zero_not p l hlen

theorem jsTrim_jsTrim (s : String) : jsTrim (jsTrim s) = jsTrim s := by
  unfold jsTrim
  congr 1
  rw [trimList_dropWhile, List.rdropWhile_idempotent]

/-- `normalize` as the win/mac card handlers compute it from the prompt
answer: `answer.trim().toLowerCase()` gives the prompt result; the handler
then recomputes `keyName.toLowerCase().trim()`.  Both composites coincide. -/
theorem normalize_fixpoint (answer : String) :
    jsTrim (jsToLowerCase (jsToLowerCase (jsTrim answer))) =
      jsToLowerCase (jsTrim answer) := by
  rw [jsToLowerCase_jsToLowerCase, jsTrim_jsToLowerCase, jsTrim_jsTrim]

/-- `KEY_MAPPINGS` from `nfc-assigned-key-emulator-win.js` lines 66-97: the
Windows action table, mapping recognized action names to SendKeys codes. -/
def KEY_MAPPINGS : List (String × String) := [
  ("left", "{LEFT}"), ("right", "{RIGHT}"), ("down", "{DOWN}"), ("up", "{UP}"),
  ("enter", "{ENTER}"), ("return", "{ENTER}"), ("space", " "),
  ("escape", "{ESC}"), ("esc", "{ESC}"), ("tab", "{TAB}"),
  ("delete", "{DELETE}"), ("backspace", "{BS}"), ("home", "{HOME}"),
  ("end", "{END}"), ("pageup", "{PGUP}"), ("pagedown", "{PGDN}"),
  ("arrowleft", "{LEFT}"), ("arrowright", "{RIGHT}"),
  ("arrowdown", "{DOWN}"), ("arrowup", "{UP}"),
  ("0", "0"), ("1", "1"), ("2", "2"), ("3", "3"), ("4", "4"),
  ("5", "5"), ("6", "6"), ("7", "7"), ("8", "8"), ("9", "9"),
  ("a", "A"), ("b", "B"), ("c", "C"), ("d", "D"), ("e", "E"), ("f", "F"),
  ("g", "G"), ("h", "H"), ("i", "I"), ("j", "J"), ("k", "K"), ("l", "L"),
  ("m", "M"), ("n", "N"), ("o", "O"), ("p", "P"), ("q", "Q"), ("r", "R"),
  ("s", "S"), ("t", "T"), ("u", "U"), ("v", "V"), ("w", "W"), ("x", "X"),
  ("y", "Y"), ("z", "Z")]

/-- `KEY_CODES` from the macOS variant (README lines 127-157): the macOS
action table, mapping recognized action names to AppleScript key codes. -/
def KEY_CODES : List (String × Nat) := [
  ("left", 123), ("right", 124), ("down", 125), ("up", 126),
  ("enter", 36), ("return", 36), ("space", 49),
  ("escape", 53), ("tab", 48),
  ("delete", 51), ("backspace", 51), ("home", 115),
  ("end", 119), ("pageup", 116), ("pagedown", 121),
  ("arrowleft", 123), ("arrowright", 124), ("arrowdown", 125), ("arrowup", 126),
  ("0", 29), ("1", 18), ("2", 19), ("3", 20), ("4", 21),
  ("5", 23), ("6", 22), ("7", 26), ("8", 28), ("9", 25),
  ("a", 0), ("b", 11), ("c", 8), ("d", 2), ("e", 14), ("f", 3),
  ("g", 5), ("h", 4), ("i", 34), ("j", 38), ("k", 40), ("l", 37),
  ("m", 46), ("n", 45), ("o", 31), ("p", 35), ("q", 12), ("r", 15),
  ("s", 1), ("t", 17), ("u", 32), ("v", 9), ("w", 13), ("x", 7),
  ("y", 16), ("z", 6)]

/-- The mutable program state: the in-memory table `TAG_KEY_MAPPING` and the
content of the durable mappings file (`none` when the file does not exist).
JSON serialization of the flat string-to-string object is modelled as the
identity, so the file holds the table it last successfully stored. -/
structure EmulatorState where
  tagKeyMapping : List (String × String)
  mappingsFile : Option (List (String × String))
deriving DecidableEq, Repr

/-- JS truthiness of `TAG_KEY_MAPPING[tagUID]` as tested by
`if (!assignedKey)`: `undefined` (no entry) and the empty string are falsy,
every other string is truthy. -/
def truthy : Option String → Bool
  | none => false
  | some s => !(s == "")

/-- JS object property assignment `TAG_KEY_MAPPING[tagUID] = validKeyName`
on a string-keyed object, modelled on an association list that keeps at most
one entry per key: replace the value in place when the key is present,
otherwise append the new entry. -/
def objSet (m : List (String × String)) (k v : String) : List (String × String) :=
  match m with
  | [] => [(k, v)]
  | (k₁, v₁) :: rest => if k₁ == k then (k₁, v) :: rest else (k₁, v₁) :: objSet rest k v

/-- `askForKeyAssignment` (win lines 46-61; mac README lines 109-124): the
operator's raw `answer` is trimmed then lowercased; an empty result means
the assignment is skipped (`resolve(null)`), otherwise the normalized name
is resolved. -/
def askForKeyAssignment (answer : String) : Option String :=
  let keyName := jsToLowerCase (jsTrim answer)
  if keyName == "" then none else some keyName

/-- `saveMappings` (win lines 32-38): synchronously writes the whole table
to the mappings file.  The write can fail; the JS catches the error, logs
it, and continues, so on failure the file keeps its previous content.
`writeOk` says whether this particular write succeeds. -/
def saveMappings (table : List (String × String)) (file : Option (List (String × String)))
    (writeOk : Bool) : Option (List (String × String)) :=
  if writeOk then some table else file

/-- `loadMappings` (win lines 15-30): when the mappings file exists, its
parsed content becomes the in-memory table — the values are NOT validated
against the key table; when it does not exist, the table stays empty and
`saveMappings` creates the file.  Returns the new in-memory table and the
new file state. -/
def loadMappings (file : Option (List (String × String))) (writeOk : Bool) :
    List (String × String) × Option (List (String × String)) :=
  match file with
  | some data => (data, some data)
  | none => ([], saveMappings [] none writeOk)

/-- The property names a plain JS object literal inherits from
`Object.prototype` (Node/V8): the `in` operator and plain property reads on
the key tables see these even though they are not own keys of the table. -/
def objectPrototypeNames : List String :=
  ["constructor", "hasOwnProperty", "isPrototypeOf", "propertyIsEnumerable",
   "toLocaleString", "toString", "valueOf", "__proto__",
   "__defineGetter__", "__defineSetter__", "__lookupGetter__", "__lookupSetter__"]

/-- JS `name in table` on the object-literal key tables: true for an own key
AND for every property name inherited from Object.prototype — in JS,
`"constructor" in KEY_MAPPINGS` is true. -/
def jsIn {β : Type} (table : List (String × β)) (name : String) : Bool :=
  (table.lookup name).isSome || objectPrototypeNames.contains name

/-- The JS value category of a property read `table[name]`. -/
inductive JsProp (β : Type) where
  | descriptor (v : β)
  | inherited
  | undef
deriving DecidableEq, Repr

/-- JS property read `table[name]` on the object-literal key tables: an own
key yields the stored key descriptor; a name inherited from Object.prototype
yields that inherited value — a function or the prototype object, never a
usable key descriptor, and NOT `undefined`; any other name is `undefined`. -/
def jsGet {β : Type} (table : List (String × β)) (name : String) : JsProp β :=
  match table.lookup name with
  | some v => JsProp.descriptor v
  | none =>
    if objectPrototypeNames.contains name then JsProp.inherited else JsProp.undef

/-- The resolution inside the Windows `pressKey` (win lines 100-116):
normalize with `toLowerCase().trim()`, test `normalizedKey in KEY_MAPPINGS`,
and on success read `KEY_MAPPINGS[normalizedKey]`.  The result is the
SendKeys code handed to the injection script when the read gives an own data
entry.  `none` covers both failure paths: when the `in` test fails the
promise rejects with the explicit unknown-key error (lines 104-107), and
when the name is merely inherited from Object.prototype the `in` test passes
but `sendKeyCode.replace` throws a TypeError (line 114) before the injection
script is written or run — either way no descriptor reaches the OS. -/
def pressKeyWinResolve (keyName : String) : Option String :=
  let normalizedKey := jsTrim (jsToLowerCase keyName)
  if jsIn KEY_MAPPINGS normalizedKey then
    match jsGet KEY_MAPPINGS normalizedKey with
    | JsProp.descriptor v => some v
    | _ => none
  else none

/-- The resolution inside the macOS `pressKey` (README lines 160-183):
`const keyCode = KEY_CODES[keyName.toLowerCase()]` — lowercased but NOT
trimmed — then `keyCode === undefined` rejects with the unknown-key error.
An own key yields its AppleScript key code.  A name inherited from
Object.prototype is not `undefined`, so it slips past the check and the
inherited value is interpolated into the AppleScript source; `osascript`
then fails on the malformed script — no key code is ever injected, so the
result is `none` there too, as for unknown names. -/
def pressKeyMacResolve (keyName : String) : Option Nat :=
  match jsGet KEY_CODES (jsToLowerCase keyName) with
  | JsProp.descriptor v => some v
  | _ => none

/-- How a single `card` event ended. -/
inductive CardOutcome where
  | dispatched (key : String)
  | skipped
  | rejected (attempted : String)
deriving DecidableEq, Repr

/-- The observable effect of one `card` event: the new program state,
whether the interactive assignment prompt was shown, the argument `pressKey`
was invoked with (when it was), the platform key descriptor actually handed
to the OS injection mechanism (when the `pressKey` lookup succeeded), and
how the event ended. -/
structure CardEffect (β : Type) where
  state : EmulatorState
  prompted : Bool
  pressed : Option String
  injected : Option β
  outcome : CardOutcome
deriving DecidableEq, Repr

/-- The miss branch of the `card` handler (win lines 167-192; mac README
lines 214-239): prompt the operator, on a skip end the event, otherwise
normalize with `toLowerCase().trim()` and validate with the JS `in` test
`normalizedKey in KEY_MAPPINGS` (win line 174; `in KEY_CODES`, README line
221) — which also accepts names inherited from Object.prototype — and
either reject (no store change, no dispatch) or assign, save, and fall
through to dispatch with the freshly assigned key. -/
def cardMiss {β : Type} (table : List (String × β)) (press : String → Option β)
    (st : EmulatorState) (tagUID answer : String) (writeOk : Bool) : CardEffect β :=
  match askForKeyAssignment answer with
  | none =>
    { state := st, prompted := true, pressed := none, injected := none,
      outcome := .skipped }
  | some keyName =>
    let normalizedKey := jsTrim (jsToLowerCase keyName)
    if jsIn table normalizedKey then
      let newTable := objSet st.tagKeyMapping tagUID normalizedKey
      { state := { tagKeyMapping := newTable,
                   mappingsFile := saveMappings newTable st.mappingsFile writeOk },
        prompted := true, pressed := some normalizedKey,
        injected := press normalizedKey, outcome := .dispatched normalizedKey }
    else
      { state := st, prompted := true, pressed := none, injected := none,
        outcome := .rejected keyName }

/-- One `card` event (win lines 141-203; mac README lines 188-250), after a
usable `tagUID` has been extracted from the card.  `table` is the platform
key table used for validation, `press` the platform `pressKey` lookup,
`answer` the operator's response should the prompt be shown, and `writeOk`
whether the `saveMappings` write succeeds.  The lookup hit test mirrors
`if (!assignedKey)`: an entry holding the empty string is falsy and takes
the miss branch. -/
def cardStep {β : Type} (table : List (String × β)) (press : String → Option β)
    (st : EmulatorState) (tagUID answer : String) (writeOk : Bool) : CardEffect β :=
  match st.tagKeyMapping.lookup tagUID with
  | none => cardMiss table press st tagUID answer writeOk
  | some k =>
    if k == "" then cardMiss table press st tagUID answer writeOk
    else
      { state := st, prompted := false, pressed := some k, injected := press k,
        outcome := .dispatched k }

/-- The Windows `card` handler instantiation. -/
def onCardWin (st : EmulatorState) (tagUID answer : String) (writeOk : Bool) :
    CardEffect String :=
  cardStep KEY_MAPPINGS pressKeyWinResolve st tagUID answer writeOk

/-- The macOS `card` handler instantiation. -/
def onCardMac (st : EmulatorState) (tagUID answer : String) (writeOk : Bool) :
    CardEffect Nat :=
  cardStep KEY_CODES pressKeyMacResolve st tagUID answer writeOk

/-- Process a sequence of tag-presence events.  Each event carries the
presented tag identifier, the operator's answer should the prompt be shown,
and whether the durable write succeeds. -/
def runEvents {β : Type} (table : List (String × β)) (press : String → Option β)
    (st : EmulatorState) : List (String × String × Bool) → EmulatorState
  | [] => st
  | (uid, answer, wk) :: rest =>
      runEvents table press (cardStep table press st uid answer wk).state rest

theorem lookup_objSet_self (m : List (String × String)) (k v : String) :
    (objSet m k v).lookup k = some v := by
  induction m with
  | nil => simp [objSet, List.lookup]
  | cons p rest ih =>
    obtain ⟨k₁, v₁⟩ := p
    by_cases h : k₁ = k
    · subst h
      simp [objSet, List.lookup]
    · have hb : (k₁ == k) = false := beq_eq_false_iff_ne.mpr h
      have hb' : (k == k₁) = false := beq_eq_false_iff_ne.mpr (Ne.symm h)
      simp [objSet, List.lookup, hb, hb', ih]

theorem lookup_objSet_ne (m : List (String × String)) (k v k' : String)
    (h : (k' == k) = false) : (objSet m k v).lookup k' = m.lookup k' := by
  induction m with
  | nil => simp [objSet, List.lookup, h]
  | cons p rest ih =>
    obtain ⟨k₁, v₁⟩ := p
    by_cases h1 : k₁ = k
    · subst h1
      simp [objSet, List.lookup, h]
    · have hb : (k₁ == k) = false := beq_eq_false_iff_ne.mpr h1
      by_cases h2 : k' = k₁
      · subst h2
        simp [objSet, List.lookup, hb]
      · have hb2 : (k' == k₁) = false := beq_eq_false_iff_ne.mpr h2
        simp [objSet, List.lookup, hb, hb2, ih]

theorem mem_objSet {m : List (String × String)} {k v : String} {q : String × String}
    (h : q ∈ objSet m k v) : q ∈ m ∨ q = (k, v) := by
  induction m with
  | nil => simpa [objSet] using h
  | cons p rest ih =>
    obtain ⟨k₁, v₁⟩ := p
    by_cases h1 : k₁ = k
    · subst h1
      rw [show objSet ((k₁, v₁) :: rest) k₁ v = (k₁, v) :: rest from by simp [objSet]] at h
      rcases List.mem_cons.mp h with h2 | h2
      · right; exact h2
      · left; exact List.mem_cons_of_mem _ h2
    · have hb : (k₁ == k) = false := beq_eq_false_iff_ne.mpr h1
      rw [show objSet ((k₁, v₁) :: rest) k v = (k₁, v₁) :: objSet rest k v from by
        simp [objSet, hb]] at h
      rcases List.mem_cons.mp h with h2 | h2
      · left; exact h2 ▸ List.mem_cons_self _ _
      · rcases ih h2 with h3 | h3
        · left; exact List.mem_cons_of_mem _ h3
        · right; exact h3

theorem mem_of_lookup_eq_some {β : Type} {m : List (String × β)} {k : String} {v : β}
    (h : m.lookup k = some v) : (k, v) ∈ m := by
  induction m with
  | nil => simp [List.lookup] at h
  | cons p rest ih =>
    obtain ⟨k₁, v₁⟩ := p
    by_cases h1 : k = k₁
    · subst h1
      simp only [List.lookup, beq_self_eq_true, Option.some.injEq] at h
      exact h ▸ List.mem_cons_self _ _
    · have hb : (k == k₁) = false := beq_eq_false_iff_ne.mpr h1
      simp only [List.lookup, hb] at h
      exact List.mem_cons_of_mem _ (ih h)

/-- Every action name in the Windows key table is already trimmed and
lowercased, and none of them is empty. -/
theorem keyMappings_keys_normalized :
    (KEY_MAPPINGS.all fun p =>
      jsTrim p.1 == p.1 && jsToLowerCase p.1 == p.1 && !(p.1 == "")) = true := by
  decide

/-- Every action name in the macOS key table is already trimmed and
lowercased, and none of them is empty. -/
theorem keyCodes_keys_normalized :
    (KEY_CODES.all fun p =>
      jsTrim p.1 == p.1 && jsToLowerCase p.1 == p.1 && !(p.1 == "")) = true := by
  decide

theorem key_normalized_of_lookup_isSome {β : Type} {table : List (String × β)} {a : String}
    (hall : (table.all fun p =>
      jsTrim p.1 == p.1 && jsToLowerCase p.1 == p.1 && !(p.1 == "")) = true)
    (h : (table.lookup a).isSome = true) :
    jsTrim a = a ∧ jsToLowerCase a = a ∧ a ≠ "" := by
  obtain ⟨v, hv⟩ := Option.isSome_iff_exists.mp h
  have hmem : (a, v) ∈ table := mem_of_lookup_eq_some hv
  have := List.all_eq_true.mp hall _ hmem
  simp only [Bool.and_eq_true, beq_iff_eq, Bool.not_eq_true', beq_eq_false_iff_ne] at this
  exact ⟨this.1.1, this.1.2, this.2⟩

theorem cardStep_eq_cardMiss {β : Type} (table : List (String × β)) (press : String → Option β)
    (st : EmulatorState) (t ans : String) (wk : Bool)
    (hmiss : truthy (st.tagKeyMapping.lookup t) = false) :
    cardStep table press st t ans wk = cardMiss table press st t ans wk := by
  unfold cardStep
  cases hlk : st.tagKeyMapping.lookup t with
  | none => rfl
  | some k =>
    rw [hlk] at hmiss
    unfold truthy at hmiss
    rw [Bool.not_eq_false'] at hmiss
    simp [hmiss]

theorem askForKeyAssignment_key {β : Type} {table : List (String × β)} {a : String}
    (hall : (table.all fun p =>
      jsTrim p.1 == p.1 && jsToLowerCase p.1 == p.1 && !(p.1 == "")) = true)
    (hvalid : (table.lookup a).isSome = true) :
    askForKeyAssignment a = some a := by
  obtain ⟨htrim, hlower, hne⟩ := key_normalized_of_lookup_isSome hall hvalid
  unfold askForKeyAssignment
  rw [htrim, hlower, if_neg (by simp [hne])]

theorem cardMiss_assign {β : Type} (table : List (String × β)) (press : String → Option β)
    (st : EmulatorState) (t a : String) (wk : Bool)
    (hall : (table.all fun p =>
      jsTrim p.1 == p.1 && jsToLowerCase p.1 == p.1 && !(p.1 == "")) = true)
    (hvalid : (table.lookup a).isSome = true) :
    cardMiss table press st t a wk =
      { state := { tagKeyMapping := objSet st.tagKeyMapping t a,
                   mappingsFile := saveMappings (objSet st.tagKeyMapping t a)
                     st.mappingsFile wk },
        prompted := true, pressed := some a, injected := press a,
        outcome := .dispatched a } := by
  obtain ⟨htrim, hlower, _⟩ := key_normalized_of_lookup_isSome hall hvalid
  have hin : jsIn table a = true := by simp [jsIn, hvalid]
  unfold cardMiss
  rw [askForKeyAssignment_key hall hvalid]
  simp only [hlower, htrim, hin, if_true]

/-- C1: for every previously-unseen TagIdentifier `t` and every valid
ActionName `a` (a key of `KEY_MAPPINGS`), after the interactive assignment
of `a` to `t` succeeds (the durable write included), a lookup of `t` in the
in-memory mapping store returns `a`, and after `saveMappings` followed by
`loadMappings` a lookup of `t` in the reloaded table still returns `a`. -/
theorem c1_assign_lookup_persistence_roundtrip
    (st : EmulatorState) (t a : String)
    (hunseen : st.tagKeyMapping.lookup t = none)
    (hvalid : (KEY_MAPPINGS.lookup a).isSome = true) :
    (onCardWin st t a true).state.tagKeyMapping.lookup t = some a ∧
    ((loadMappings (onCardWin st t a true).state.mappingsFile true).1.lookup t = some a) := by
  have hmiss : truthy (st.tagKeyMapping.lookup t) = false := by
    rw [hunseen]; rfl
  have hstep : onCardWin st t a true =
      cardMiss KEY_MAPPINGS pressKeyWinResolve st t a true :=
    cardStep_eq_cardMiss _ _ _ _ _ _ hmiss
  rw [hstep, cardMiss_assign _ _ _ _ _ _ keyMappings_keys_normalized hvalid]
  constructor
  · exact lookup_objSet_self _ _ _
  · simp only [saveMappings, if_pos, loadMappings]
    exact lookup_objSet_self _ _ _

/-- Witness for C1 at the spec scenario: empty store, tag `04A224B2`,
operator supplies `right`. -/
theorem c1_witness :
    (⟨[], none⟩ : EmulatorState).tagKeyMapping.lookup "04A224B2" = none ∧
    (KEY_MAPPINGS.lookup "right").isSome = true ∧
    ((onCardWin ⟨[], none⟩ "04A224B2" "right" true).state.tagKeyMapping.lookup "04A224B2"
        = some "right" ∧
      (loadMappings (onCardWin ⟨[], none⟩ "04A224B2" "right" true).state.mappingsFile
          true).1.lookup "04A224B2" = some "right") :=
  ⟨by decide, by decide,
    c1_assign_lookup_persistence_roundtrip ⟨[], none⟩ "04A224B2" "right"
      (by decide) (by decide)⟩

/-- C2, evaluated at the failing input that exposes the validation bug: the
operator answer `constructor` is NOT an own key of the registry table, yet
the JS `in` check (win line 174) accepts it because it is inherited from
Object.prototype.  Contrary to the claim, the program persists the entry to
the in-memory table AND to the durable file, and the event ends in the
dispatch path (where `pressKey` then dies on a TypeError, with no descriptor
injected) — not with a validation failure. -/
theorem c2_code_bug_eval :
    KEY_MAPPINGS.lookup "constructor" = none ∧
    jsIn KEY_MAPPINGS "constructor" = true ∧
    (onCardWin ⟨[], some []⟩ "04A224B2" "constructor" true).state.tagKeyMapping
        = [("04A224B2", "constructor")] ∧
    (onCardWin ⟨[], some []⟩ "04A224B2" "constructor" true).state.mappingsFile
        = some [("04A224B2", "constructor")] ∧
    (onCardWin ⟨[], some []⟩ "04A224B2" "constructor" true).outcome
        = .dispatched "constructor" ∧
    (onCardWin ⟨[], some []⟩ "04A224B2" "constructor" true).injected = none := by
  decide

/-- C3: when a tag has no usable stored mapping and the operator declines
the prompt with an empty response, no store entry is created (state is
unchanged) and key injection is never invoked; the event ends skipped. -/
theorem c3_decline_no_entry_no_injection
    (st : EmulatorState) (t : String) (wk : Bool)
    (hmiss : truthy (st.tagKeyMapping.lookup t) = false) :
    (onCardWin st t "" wk).state = st ∧
    (onCardWin st t "" wk).pressed = none ∧
    (onCardWin st t "" wk).injected = none ∧
    (onCardWin st t "" wk).outcome = .skipped := by
  have hstep : onCardWin st t "" wk =
      cardMiss KEY_MAPPINGS pressKeyWinResolve st t "" wk :=
    cardStep_eq_cardMiss _ _ _ _ _ _ hmiss
  rw [hstep]
  unfold cardMiss
  rw [show askForKeyAssignment "" = none from rfl]
  exact ⟨rfl, rfl, rfl, rfl⟩

/-- Witness for C3: empty store, tag `04A224B2`, empty response. -/
theorem c3_witness :
    truthy ((⟨[], none⟩ : EmulatorState).tagKeyMapping.lookup "04A224B2") = false ∧
    ((onCardWin ⟨[], none⟩ "04A224B2" "" true).state = ⟨[], none⟩ ∧
      (onCardWin ⟨[], none⟩ "04A224B2" "" true).injected = none ∧
      (onCardWin ⟨[], none⟩ "04A224B2" "" true).outcome = .skipped) :=
  ⟨by decide,
    let h := c3_decline_no_entry_no_injection ⟨[], none⟩ "04A224B2" true (by decide)
    ⟨h.1, h.2.2.1, h.2.2.2⟩⟩

/-- Counterexample to C4 as stated: the store holds a mapping for tag
`04A224B2` (to the empty string, as a hand-edited mappings file can), yet
the tag-presence event DOES invoke the assignment prompt and DOES change the
store — `if (!assignedKey)` treats the stored empty string as a miss. -/
theorem c4_counterexample :
    (⟨[("04A224B2", "")], none⟩ : EmulatorState).tagKeyMapping.lookup "04A224B2"
        = some "" ∧
    (onCardWin ⟨[("04A224B2", "")], none⟩ "04A224B2" "left" true).prompted = true ∧
    (onCardWin ⟨[("04A224B2", "")], none⟩ "04A224B2" "left" true).state.tagKeyMapping
        = [("04A224B2", "left")] := by
  decide

/-- C4 (amended): for every TagIdentifier whose stored mapping is a
NON-EMPTY string, every tag-presence event for it resolves to that stored
action, never invokes the assignment prompt, and leaves the state
unchanged. -/
theorem c4_mapped_tag_idempotent
    (st : EmulatorState) (t ans : String) (wk : Bool) (k : String)
    (hk : st.tagKeyMapping.lookup t = some k) (hne : k ≠ "") :
    (onCardWin st t ans wk).state = st ∧
    (onCardWin st t ans wk).prompted = false ∧
    (onCardWin st t ans wk).pressed = some k ∧
    (onCardWin st t ans wk).outcome = .dispatched k := by
  have hb : (k == "") = false := beq_eq_false_iff_ne.mpr hne
  unfold onCardWin cardStep
  rw [hk]
  simp [hb]

/-- Witness for C4 at the spec scenario: store contains
`04A224B2 -> right`; tapping again dispatches `right` without prompting. -/
theorem c4_witness :
    (⟨[("04A224B2", "right")], some [("04A224B2", "right")]⟩ :
        EmulatorState).tagKeyMapping.lookup "04A224B2" = some "right" ∧
    "right" ≠ "" ∧
    ((onCardWin ⟨[("04A224B2", "right")], some [("04A224B2", "right")]⟩
        "04A224B2" "" true).prompted = false ∧
      (onCardWin ⟨[("04A224B2", "right")], some [("04A224B2", "right")]⟩
        "04A224B2" "" true).pressed = some "right") :=
  ⟨by decide, by decide,
    let h := c4_mapped_tag_idempotent
      ⟨[("04A224B2", "right")], some [("04A224B2", "right")]⟩ "04A224B2" "" true
      "right" (by decide) (by decide)
    ⟨h.2.1, h.2.2.1⟩⟩

theorem pressKeyWinResolve_of_key {x : String}
    (h : (KEY_MAPPINGS.lookup x).isSome = true) :
    pressKeyWinResolve x = KEY_MAPPINGS.lookup x := by
  obtain ⟨htrim, hlower, _⟩ :=
    key_normalized_of_lookup_isSome keyMappings_keys_normalized h
  obtain ⟨v, hv⟩ := Option.isSome_iff_exists.mp h
  unfold pressKeyWinResolve
  rw [hlower, htrim]
  simp [jsIn, jsGet, hv]

/-- Counterexample to C5 as stated: `loadMappings` performs no validation,
so a hand-edited mappings file can put `banana` into the store; the
tag-presence event for that tag reaches the dispatch step (`pressKey` IS
invoked, with `banana`), yet the registry lookup inside `pressKey` takes
the unknown-key branch and rejects instead of injecting a key. -/
theorem c5_counterexample :
    ((onCardWin ⟨[("aa", "banana")], some [("aa", "banana")]⟩ "aa" "" true).pressed).isSome
        = true ∧
    (onCardWin ⟨[("aa", "banana")], some [("aa", "banana")]⟩ "aa" "" true).injected
        = none := by
  decide

/-- C5 (amended): dispatch-step resolution succeeds exactly where a genuine
registry name is dispatched.  When every value stored in the mapping table
is an own key of the registry, every event dispatching via a store hit
resolves successfully; and any event whose dispatched action name is an own
registry key (in particular a fresh assignment of a declared action name)
resolves successfully.  Resolution at the dispatch step can still fail in
two ways: a store hit on an unvalidated file-loaded value takes the
unknown-key branch, and a freshly assigned Object.prototype name such as
`constructor` passes the `in` validation, reaches dispatch, and dies on a
TypeError before injection. -/
theorem c5_dispatch_resolution
    (st : EmulatorState) (t ans : String) (wk : Bool)
    (hstore : ∀ q ∈ st.tagKeyMapping, (KEY_MAPPINGS.lookup q.2).isSome = true) :
    (truthy (st.tagKeyMapping.lookup t) = true →
      ((onCardWin st t ans wk).injected).isSome = true) ∧
    (∀ k, (onCardWin st t ans wk).pressed = some k →
      (KEY_MAPPINGS.lookup k).isSome = true →
      ((onCardWin st t ans wk).injected).isSome = true) := by
  constructor
  · intro hhit
    cases hlk : st.tagKeyMapping.lookup t with
    | none => rw [hlk] at hhit; simp [truthy] at hhit
    | some k₁ =>
      rw [hlk] at hhit
      unfold truthy at hhit
      rw [Bool.not_eq_true'] at hhit
      have hv : (KEY_MAPPINGS.lookup k₁).isSome = true :=
        hstore (t, k₁) (mem_of_lookup_eq_some hlk)
      unfold onCardWin cardStep
      rw [hlk]
      simp only [hhit, Bool.false_eq_true, if_false]
      rw [pressKeyWinResolve_of_key hv]
      exact hv
  · intro k hpressed hkey
    by_cases hhit : truthy (st.tagKeyMapping.lookup t) = true
    · cases hlk : st.tagKeyMapping.lookup t with
      | none => rw [hlk] at hhit; simp [truthy] at hhit
      | some k₁ =>
        rw [hlk] at hhit
        unfold truthy at hhit
        rw [Bool.not_eq_true'] at hhit
        unfold onCardWin cardStep at hpressed ⊢
        rw [hlk] at hpressed ⊢
        simp only [hhit, Bool.false_eq_true, if_false] at hpressed ⊢
        have hk : k₁ = k := by simpa using hpressed
        rw [hk, pressKeyWinResolve_of_key hkey]
        exact hkey
    · have hmiss : truthy (st.tagKeyMapping.lookup t) = false :=
        Bool.not_eq_true _ ▸ Bool.eq_false_iff.mpr hhit
      have hstep : onCardWin st t ans wk =
          cardMiss KEY_MAPPINGS pressKeyWinResolve st t ans wk :=
        cardStep_eq_cardMiss _ _ _ _ _ _ hmiss
      rw [hstep] at hpressed ⊢
      unfold cardMiss at hpressed ⊢
      cases hask : askForKeyAssignment ans with
      | none =>
        rw [hask] at hpressed
        simp at hpressed
      | some keyName =>
        rw [hask] at hpressed
        by_cases hv : jsIn KEY_MAPPINGS (jsTrim (jsToLowerCase keyName)) = true
        · simp only [hv, if_true] at hpressed ⊢
          have hk : jsTrim (jsToLowerCase keyName) = k := by simpa using hpressed
          rw [hk, pressKeyWinResolve_of_key hkey]
          exact hkey
        · simp only [hv, Bool.false_eq_true, if_false] at hpressed
          simp at hpressed

/-- Witness for C5 (amended): a store hit on a registry-validated entry
resolves, and a freshly dispatched registry name resolves. -/
theorem c5_witness :
    ((onCardWin ⟨[("aa", "right")], none⟩ "aa" "" true).injected).isSome = true ∧
    ((onCardWin ⟨[], none⟩ "aa" "left" true).injected).isSome = true :=
  ⟨(c5_dispatch_resolution ⟨[("aa", "right")], none⟩ "aa" "" true (by decide)).1
      (by decide),
   (c5_dispatch_resolution ⟨[], none⟩ "aa" "left" true (by decide)).2
      "left" (by decide) (by decide)⟩

/-- Counterexample to C6: the Windows table `KEY_MAPPINGS` recognizes the
action name `esc`, the macOS table `KEY_CODES` does not, so the two
registries do not accept the same action-name set. -/
theorem c6_counterexample :
    (KEY_MAPPINGS.lookup "esc").isSome = true ∧ KEY_CODES.lookup "esc" = none := by
  decide

/-- C6 (amended): the macOS action-name set is a proper subset of the
Windows one — every macOS name is accepted by the Windows table, and the
only Windows name the macOS table lacks is the alias `esc`.  A mapping file
written on macOS therefore resolves on Windows, while a Windows-written
file that uses `esc` does not resolve on macOS. -/
theorem c6_action_sets_differ_only_by_esc :
    (KEY_CODES.all fun p => (KEY_MAPPINGS.lookup p.1).isSome) = true ∧
    (KEY_MAPPINGS.all fun p => (KEY_CODES.lookup p.1).isSome || p.1 == "esc") = true := by
  decide

/-- Counterexample to C7 as stated: ` left` and `left` are equal after
trimming and lowercasing, yet the macOS `pressKey` lookup (which lowercases
but does not trim) sends them to different results, so the macOS backend is
not a trimmed lookup. -/
theorem c7_counterexample :
    jsToLowerCase (jsTrim " left") = jsToLowerCase (jsTrim "left") ∧
    pressKeyMacResolve " left" = none ∧
    pressKeyMacResolve "left" = some 123 := by
  decide

/-- C7 (amended): the Windows `pressKey` lookup is a trimmed,
case-insensitive table lookup (inputs equal after trimming and lowercasing
resolve alike, and unknown names give `none`, not an error); the macOS
lookup is only case-insensitive — it lowercases but does not trim, so just
inputs equal after lowercasing are guaranteed to resolve alike there. -/
theorem c7_resolve_normalization (s₁ s₂ : String) :
    (jsToLowerCase (jsTrim s₁) = jsToLowerCase (jsTrim s₂) →
      pressKeyWinResolve s₁ = pressKeyWinResolve s₂) ∧
    (jsToLowerCase s₁ = jsToLowerCase s₂ →
      pressKeyMacResolve s₁ = pressKeyMacResolve s₂) := by
  constructor
  · intro h
    unfold pressKeyWinResolve
    rw [jsTrim_jsToLowerCase, jsTrim_jsToLowerCase, h]
  · intro h
    unfold pressKeyMacResolve
    rw [h]

/-- Witness for C7 (amended) at concrete inputs. -/
theorem c7_witness :
    pressKeyWinResolve " LEFT " = pressKeyWinResolve "left" ∧
    pressKeyMacResolve "LEFT" = pressKeyMacResolve "left" :=
  ⟨(c7_resolve_normalization " LEFT " "left").1 (by decide),
   (c7_resolve_normalization "LEFT" "left").2 (by decide)⟩

/-- C8: when the `saveMappings` write fails during an assignment, the
in-memory table still receives the new entry — the assignment happens
before the save and the write error is swallowed, so there is no rollback —
a subsequent lookup of the identifier returns the newly assigned action,
and the durable file keeps its previous content. -/
theorem c8_write_failure_keeps_memory
    (st : EmulatorState) (t a : String)
    (hmiss : truthy (st.tagKeyMapping.lookup t) = false)
    (hvalid : (KEY_MAPPINGS.lookup a).isSome = true) :
    (onCardWin st t a false).state.tagKeyMapping.lookup t = some a ∧
    (onCardWin st t a false).state.mappingsFile = st.mappingsFile := by
  have hstep : onCardWin st t a false =
      cardMiss KEY_MAPPINGS pressKeyWinResolve st t a false :=
    cardStep_eq_cardMiss _ _ _ _ _ _ hmiss
  rw [hstep, cardMiss_assign _ _ _ _ _ _ keyMappings_keys_normalized hvalid]
  exact ⟨lookup_objSet_self _ _ _, rfl⟩

/-- Witness for C8: empty store, assignment of `right` with a failing
write. -/
theorem c8_witness :
    ((onCardWin ⟨[], some []⟩ "04A224B2" "right" false).state.tagKeyMapping.lookup
        "04A224B2" = some "right" ∧
      (onCardWin ⟨[], some []⟩ "04A224B2" "right" false).state.mappingsFile = some []) :=
  c8_write_failure_keeps_memory ⟨[], some []⟩ "04A224B2" "right" (by decide) (by decide)

/-- C9: a whitespace-only operator response behaves exactly like the empty
response — the whole card event has the same effect — and in particular,
when the tag had no usable stored mapping, it counts as a decline: no store
entry is created, no key injection happens, the event ends skipped. -/
theorem c9_whitespace_only_answer_is_decline
    (st : EmulatorState) (t ans : String) (wk : Bool)
    (hws : ans.data.all isJsWhitespace = true) :
    onCardWin st t ans wk = onCardWin st t "" wk ∧
    (truthy (st.tagKeyMapping.lookup t) = false →
      (onCardWin st t ans wk).state = st ∧
      (onCardWin st t ans wk).injected = none ∧
      (onCardWin st t ans wk).outcome = .skipped) := by
  have htrim : jsTrim ans = "" := by
    unfold jsTrim
    have h1 : ans.data.dropWhile isJsWhitespace = [] :=
      List.dropWhile_eq_nil_iff.mpr fun x hx => List.all_eq_true.mp hws x hx
    rw [h1]
    rfl
  have hask : askForKeyAssignment ans = none := by
    unfold askForKeyAssignment
    rw [htrim]
    rfl
  have hmisseq : cardMiss KEY_MAPPINGS pressKeyWinResolve st t ans wk =
      cardMiss KEY_MAPPINGS pressKeyWinResolve st t "" wk := by
    unfold cardMiss
    rw [hask, show askForKeyAssignment "" = none from rfl]
  constructor
  · unfold onCardWin cardStep
    cases hlk : st.tagKeyMapping.lookup t with
    | none => exact hmisseq
    | some k =>
      by_cases hk : (k == "") = true
      · simp only [hk, if_true]
        exact hmisseq
      · simp only [hk, Bool.false_eq_true, if_false]
  · intro hmiss
    have hstep : onCardWin st t ans wk =
        cardMiss KEY_MAPPINGS pressKeyWinResolve st t ans wk :=
      cardStep_eq_cardMiss _ _ _ _ _ _ hmiss
    rw [hstep]
    unfold cardMiss
    rw [hask]
    exact ⟨rfl, rfl, rfl⟩

/-- Witness for C9: three spaces behave like the empty response on an
unseen tag. -/
theorem c9_witness :
    ("   " : String).data.all isJsWhitespace = true ∧
    (onCardWin ⟨[], none⟩ "04A224B2" "   " true = onCardWin ⟨[], none⟩ "04A224B2" "" true ∧
      (onCardWin ⟨[], none⟩ "04A224B2" "   " true).outcome = .skipped) :=
  ⟨by decide,
    let h := c9_whitespace_only_answer_is_decline ⟨[], none⟩ "04A224B2" "   " true (by decide)
    ⟨h.1, (h.2 (by decide)).2.2⟩⟩

theorem normalized_lower_fix (s : String) :
    jsToLowerCase (jsTrim (jsToLowerCase s)) = jsTrim (jsToLowerCase s) := by
  rw [← jsTrim_jsToLowerCase, jsToLowerCase_jsToLowerCase]

/-- Counterexample to C10 as stated: the program itself — not a hand-edited
file — writes the entry `constructor` into the store: the JS `in`
validation accepts this Object.prototype name although it is not a member
of the registry's own key set. -/
theorem c10_counterexample :
    ("04A224B2", "constructor") ∈
      (runEvents KEY_MAPPINGS pressKeyWinResolve ⟨[], none⟩
        [("04A224B2", "constructor", true)]).tagKeyMapping ∧
    KEY_MAPPINGS.lookup "constructor" = none ∧
    ("04A224B2", "constructor") ∈
      (runEvents KEY_CODES pressKeyMacResolve ⟨[], none⟩
        [("04A224B2", "constructor", true)]).tagKeyMapping ∧
    KEY_CODES.lookup "constructor" = none := by
  decide

/-- The store invariant of C10 as the code actually maintains it: every
entry value in the mapping table is trimmed, lowercased, and accepted by
the JS `in` test against the registry table — an own registry key or an
Object.prototype property name. -/
def storeValuesValid {β : Type} (table : List (String × β))
    (m : List (String × String)) : Prop :=
  ∀ q ∈ m, jsTrim q.2 = q.2 ∧ jsToLowerCase q.2 = q.2 ∧ jsIn table q.2 = true

theorem storeValuesValid_cardMiss {β : Type} {table : List (String × β)}
    (press : String → Option β) {st : EmulatorState} (t ans : String) (wk : Bool)
    (hst : storeValuesValid table st.tagKeyMapping) :
    storeValuesValid table (cardMiss table press st t ans wk).state.tagKeyMapping := by
  unfold cardMiss
  cases hask : askForKeyAssignment ans with
  | none => exact hst
  | some keyName =>
    by_cases hv : jsIn table (jsTrim (jsToLowerCase keyName)) = true
    · simp only [hv, if_true]
      intro q hq
      rcases mem_objSet hq with h | h
      · exact hst q h
      · rw [h]
        exact ⟨jsTrim_jsTrim (jsToLowerCase keyName), normalized_lower_fix keyName, hv⟩
    · simp only [hv, Bool.false_eq_true, if_false]
      exact hst

theorem storeValuesValid_cardStep {β : Type} {table : List (String × β)}
    (press : String → Option β) {st : EmulatorState} (t ans : String) (wk : Bool)
    (hst : storeValuesValid table st.tagKeyMapping) :
    storeValuesValid table (cardStep table press st t ans wk).state.tagKeyMapping := by
  unfold cardStep
  cases hlk : st.tagKeyMapping.lookup t with
  | none => exact storeValuesValid_cardMiss press t ans wk hst
  | some k =>
    by_cases hk : (k == "") = true
    · simp only [hk, if_true]
      exact storeValuesValid_cardMiss press t ans wk hst
    · simp only [hk, Bool.false_eq_true, if_false]
      exact hst

theorem storeValuesValid_runEvents {β : Type} {table : List (String × β)}
    (press : String → Option β) :
    ∀ (events : List (String × String × Bool)) (st : EmulatorState),
      storeValuesValid table st.tagKeyMapping →
      storeValuesValid table (runEvents table press st events).tagKeyMapping := by
  intro events
  induction events with
  | nil => exact fun st hst => hst
  | cons e rest ih =>
    intro st hst
    obtain ⟨uid, ans, wk⟩ := e
    exact ih _ (storeValuesValid_cardStep press uid ans wk hst)

/-- C10 (amended): starting from an empty store, after any sequence of
tag-presence events (any identifiers, any raw operator responses, any write
outcomes), every entry the program writes maps to an action name that is
trimmed, lowercased, and accepted by the JS `in` validation against the
registry table — an own registry key or an Object.prototype property name
such as `constructor` — in the Windows variant and in the macOS variant
alike.  Membership in the registry's own key set is NOT invariant: the
inherited names pass the `in` validation and get stored. -/
theorem c10_store_invariant (events : List (String × String × Bool)) :
    storeValuesValid KEY_MAPPINGS
      (runEvents KEY_MAPPINGS pressKeyWinResolve ⟨[], none⟩ events).tagKeyMapping ∧
    storeValuesValid KEY_CODES
      (runEvents KEY_CODES pressKeyMacResolve ⟨[], none⟩ events).tagKeyMapping :=
  ⟨storeValuesValid_runEvents pressKeyWinResolve events
      ⟨[], none⟩ (fun q hq => by simp at hq),
   storeValuesValid_runEvents pressKeyMacResolve events
      ⟨[], none⟩ (fun q hq => by simp at hq)⟩

/-- Witness for C10 (amended): one event with raw response ` RIGHT ` writes
the normalized entry `right`, which passes the `in` validation. -/
theorem c10_witness :
    jsTrim "right" = "right" ∧ jsToLowerCase "right" = "right" ∧
    jsIn KEY_MAPPINGS "right" = true :=
  (c10_store_invariant [("04A224B2", " RIGHT ", true)]).1 ("04A224B2", "right") (by decide)

end NfcEmulator
